import Mathlib

/-!
Verification development for the TubeAgent repository.

The web client is embedded from the TypeScript sources under `web/src`.
The backend pipeline components (Chunk Planner, Manifest Store,
Transcription Scheduler, Strategy Selector) are referenced by the
repository's documentation but their Python sources are not among the
files at hand, so those components are modelled from the specification;
each such definition says so in its doc comment.
-/

/-! Part 1: web API client (`web/src/api/client.ts`). -/

/-- Outcome of `res.json()` on a fetch `Response`, together with the
response's `ok` flag and numeric `status`.  `jsonBody = none` models a
body that is not valid JSON (where `res.json()` rejects with a syntax
error); `jsonBody = some v` models a body that parses to the value `v`. -/
structure HttpResponse (J : Type) where
  ok : Bool
  status : Nat
  jsonBody : Option J
deriving DecidableEq, Repr

/-- The two ways `request` in `web/src/api/client.ts` can reject: the
explicit `throw new Error(` followed by `HTTP` and the status `)` when
`res.ok` is false, and the rejection of `await res.json()` when the body
is not valid JSON. -/
inductive RequestError where
  | httpError (message : String)
  | jsonSyntaxError
deriving DecidableEq, Repr

/-- Embedding of `request` from `web/src/api/client.ts`: after the fetch
resolves, `if (!res.ok) throw new Error('HTTP ' + res.status)`, then
`return await res.json()`. -/
def request {J : Type} (res : HttpResponse J) : Except RequestError J :=
  if res.ok = false then
    Except.error (RequestError.httpError ("HTTP " ++ toString res.status))
  else
    match res.jsonBody with
    | some v => Except.ok v
    | none => Except.error RequestError.jsonSyntaxError

/-- The value a promise resolves with, if it resolves at all. -/
def resolvesTo {J : Type} : Except RequestError J → Option J
  | Except.ok v => some v
  | Except.error _ => none

/-! Part 2: storage utilities (`web/src/utils/storage.ts`, the MemoryStorage
fallback). -/

/-- The backing `Map<string, string>` of `MemoryStorage`, as a partial map. -/
def MemStore : Type := String → Option String

/-- A fresh `MemoryStorage` has an empty map. -/
def MemStore.empty : MemStore := fun _ => none

/-- `MemoryStorage.getItem`: `this.store.get(key) || null`.  The empty
string is falsy in JavaScript, so a stored empty string collapses to
`null` just like a missing key. -/
def MemStore.getItem (st : MemStore) (key : String) : Option String :=
  match st key with
  | some v => if v = "" then none else some v
  | none => none

/-- `MemoryStorage.setItem`: `this.store.set(key, value); return true`.
Returns the updated store and the boolean result. -/
def MemStore.setItem (st : MemStore) (key value : String) : MemStore × Bool :=
  (fun k => if k = key then some value else st k, true)

/-- `MemoryStorage.removeItem`: `this.store.delete(key); return true`. -/
def MemStore.removeItem (st : MemStore) (key : String) : MemStore × Bool :=
  (fun k => if k = key then none else st k, true)

/-! Part 3: progress steps and the task bar (`web/src/api/progress.ts`,
`web/src/components/chat/TaskBar.tsx`). -/

/-- Status of a `ProgressStep` (`web/src/api/progress.ts`): the TypeScript
union `'running' | 'done' | 'error' | 'pending'`. -/
inductive ProgressStatus where
  | pending
  | running
  | done
  | error
deriving DecidableEq, Repr

/-- A `ProgressStep` record from `web/src/api/progress.ts`.  Its `name` is
an unconstrained string; only the status is a closed union. -/
structure ProgressStep where
  name : String
  status : ProgressStatus
  started_at : Option Int
  ended_at : Option Int
  note : Option String
deriving DecidableEq, Repr

/-- The `LABELS` record of `TaskBar.tsx` (lines 12-18), as a key-value list. -/
def LABELS : List (String × String) :=
  [("fetch_task", "Fetch video details"),
   ("extract_audio", "Understand video"),
   ("transcribe_asr", "Respond using the video content"),
   ("summarise_url_direct", "Respond using the video content"),
   ("emit_output", "Save deliverables")]

/-- `SHORT_VIDEO_FLOW` of `TaskBar.tsx` (line 21). -/
def SHORT_VIDEO_FLOW : List String := ["fetch_task", "summarise_url_direct"]

/-- `LONG_VIDEO_FLOW` of `TaskBar.tsx` (line 22). -/
def LONG_VIDEO_FLOW : List String := ["fetch_task", "extract_audio", "transcribe_asr"]

/-- `labelFor` of `TaskBar.tsx`: `LABELS[step.name] || step.name.replace(/_/g, ' ')`. -/
def labelFor (n : String) : String :=
  match List.lookup n LABELS with
  | some l => if l = "" then n.replace "_" " " else l
  | none => n.replace "_" " "

/-- The two flows `detectedFlow` distinguishes in `TaskBar.tsx`. -/
inductive UiFlow where
  | short
  | long
deriving DecidableEq, Repr

/-- `detectedFlow` of `TaskBar.tsx` (lines 67-77): `summarise_url_direct`
wins, else `extract_audio`/`transcribe_asr` means the long flow. -/
def detectedFlow (steps : List ProgressStep) : Option UiFlow :=
  if steps.isEmpty then none
  else if steps.any (fun s => s.name == "summarise_url_direct") then some UiFlow.short
  else if steps.any (fun s => s.name == "extract_audio" || s.name == "transcribe_asr") then
    some UiFlow.long
  else none

/-- The step-name vocabulary asserted by the specification (section 6:
fixed names consumed by the UI layer).  Stated from the spec's words, to
be compared with the vocabulary the UI code actually uses. -/
def specClaimedStepVocabulary : List String :=
  ["fetch_task", "extract_audio", "transcribe_asr",
   "summarise_direct", "summarise_map_reduce", "emit_output"]

/-! Part 4: the chat WebSocket message handler
(`web/src/components/chat/Chat.tsx`, `ws.onmessage`, lines 116-144). -/

/-- A WebSocket frame as seen by `ws.onmessage`: either `JSON.parse(evt.data)`
threw (`invalid`), or it produced an object whose `type`, `text` and
`message` fields are read (absent fields are `none`, matching the
TypeScript type `WSMessage`). -/
inductive WSFrame where
  | invalid
  | msg (ty : Option String) (text : Option String) (message : Option String)
deriving DecidableEq, Repr

/-- The component state touched by `ws.onmessage`: `streamText`, `wsError`
and `stickyError`. -/
structure ChatStreamState where
  streamText : String
  wsError : String
  stickyError : String
deriving DecidableEq, Repr

/-- The fixed default shown by `Chat.tsx` when an error frame carries no
usable message. -/
def defaultErrorText : String := "An error occurred while generating the response."

/-- Embedding of the `ws.onmessage` handler of `Chat.tsx` (lines 116-144).
A frame that is not valid JSON is ignored; `connected` clears the error
banners; `token` appends `msg.text` when it is present and non-empty
(JavaScript truthiness of `msg.text`); `message_complete` resets the
stream and the banners; `error` resets the stream and surfaces
`msg.message || default`; any other type changes nothing. -/
def onMessage (st : ChatStreamState) (f : WSFrame) : ChatStreamState :=
  match f with
  | WSFrame.invalid => st
  | WSFrame.msg ty text message =>
    if ty = some "connected" then
      { streamText := st.streamText, wsError := "", stickyError := "" }
    else if ty = some "token" then
      match text with
      | some t => if t = "" then st else { st with streamText := st.streamText ++ t }
      | none => st
    else if ty = some "message_complete" then
      { streamText := "", wsError := "", stickyError := "" }
    else if ty = some "error" then
      let m :=
        match message with
        | some s => if s = "" then defaultErrorText else s
        | none => defaultErrorText
      { streamText := "", wsError := m,
        stickyError := if st.stickyError = "" then m else st.stickyError }
    else st

/-- The initial chat state at connection start. -/
def initialChatState : ChatStreamState :=
  { streamText := "", wsError := "", stickyError := "" }

/-- The streaming text displayed after a sequence of delivered frames. -/
def chatStream (frames : List WSFrame) : String :=
  (frames.foldl onMessage initialChatState).streamText

/-- Whether a frame resets the streaming text: type `message_complete` or
`error`. -/
def isResetFrame (f : WSFrame) : Bool :=
  match f with
  | WSFrame.msg ty _ _ => ty == some "message_complete" || ty == some "error"
  | WSFrame.invalid => false

/-- The text a frame contributes to the stream: the `text` field of a
`token` frame when present and non-empty. -/
def tokenText (f : WSFrame) : Option String :=
  match f with
  | WSFrame.msg ty text _ =>
    if ty = some "token" then
      match text with
      | some t => if t = "" then none else some t
      | none => none
    else none
  | WSFrame.invalid => none

/-- Concatenation of a list of strings, in order. -/
def concatTexts (l : List String) : String := l.foldr (fun a b => a ++ b) ""

/-- The frames received since the most recent reset frame (or since
connection start). -/
def framesSinceReset (frames : List WSFrame) : List WSFrame :=
  frames.foldl (fun acc f => if isResetFrame f then [] else acc ++ [f]) []

/-- The streaming text the claim describes: the in-order concatenation of
the token texts of the frames received since the most recent reset. -/
def displayedStreamText (frames : List WSFrame) : String :=
  concatTexts ((framesSinceReset frames).filterMap tokenText)

/-- One step of the claim's description of the streaming text: a reset
frame empties it, a token frame appends its (non-empty) text, every
other frame leaves it unchanged. -/
def specStep (s : String) (f : WSFrame) : String :=
  if isResetFrame f then ""
  else
    match tokenText f with
    | some t => s ++ t
    | none => s

/-- What the error frame of the specification's claim would display: the
frame's message, or the fixed default when the field is absent.  Stated
from the spec's words, to be compared with `onMessage`. -/
def specClaimedErrorDisplay (message : Option String) : String :=
  message.getD defaultErrorText

/-! Part 5: the backend pipeline core.  The Python sources
(`src/agent/core/planner.py`, `src/agent/tools/extract/manifest.py`,
`src/agent/tools/transcribe.py`) are referenced by the repository's
README and documentation but are not among the files at hand, so the
components below are modelled from the specification. -/

/-- Modelled from the spec: the `ChunkSpec` status union of section 3
(the manifest source `src/agent/tools/extract/manifest.py` is missing). -/
inductive ChunkStatus where
  | pending
  | running
  | done
  | failed
deriving DecidableEq, Repr

/-- Modelled from the spec: a `ChunkSpec` record of section 3 (the manifest
source is missing).  `originalIndex` and `subIndex` form the canonical
ordering key `(original_index, sub_index or 0)`; `transcriptText` stands
for the chunk's transcript segment once produced. -/
structure ChunkSpec where
  originalIndex : Nat
  subIndex : Option Nat
  startSeconds : Nat
  endSeconds : Nat
  status : ChunkStatus
  transcriptText : String
  attemptCount : Nat
deriving DecidableEq, Repr

/-- Number of chunks the planner lays out: the ceiling of
`duration / target`, and at least one chunk even for zero duration. -/
def numChunks (duration target : Nat) : Nat :=
  max 1 ((duration + target - 1) / target)

/-- Modelled from the spec: the Chunk Planner of section 4.1 (the extract
tool source is missing).  Chunk `i` covers the grid cell from `i * target`
to `(i+1) * target` clipped to the duration, with every start after the
first pulled back by `overlap` seconds, matching the spec's worked
scenario (duration 3600, target 1800, overlap 2 gives the two chunks
`(0, 1800)` and `(1798, 3600)`). -/
def planChunks (duration target overlap : Nat) : List (Nat × Nat) :=
  (List.range (numChunks duration target)).map fun i =>
    (if i = 0 then 0 else i * target - overlap, min ((i + 1) * target) duration)

/-- The two synthesis strategies of section 4.4. -/
inductive Strategy where
  | direct
  | map_reduce
deriving DecidableEq, Repr

/-- Modelled from the spec: the Strategy Selector decision rule of section
4.4 (the planner source `src/agent/core/planner.py` is missing): direct
when `duration_seconds <= direct_threshold_minutes * 60`, else
map-reduce. -/
def selectStrategy (durationSeconds thresholdMinutes : Nat) : Strategy :=
  if durationSeconds ≤ thresholdMinutes * 60 then Strategy.direct else Strategy.map_reduce

/-- The task flow the UI expects for each strategy: `SHORT_VIDEO_FLOW` for
the direct strategy and `LONG_VIDEO_FLOW` for the chunked one, from
`TaskBar.tsx` (lines 20-22). -/
def taskFlowFor : Strategy → List String
  | Strategy.direct => SHORT_VIDEO_FLOW
  | Strategy.map_reduce => LONG_VIDEO_FLOW

/-- The canonical ordering key of a chunk: `(original_index, sub_index or 0)`
(section 4.3's ordering guarantee). -/
def chunkKey (c : ChunkSpec) : Nat × Nat :=
  (c.originalIndex, c.subIndex.getD 0)

/-- Comparison of chunks by their canonical key, lexicographically. -/
def keyLe (c d : ChunkSpec) : Prop :=
  c.originalIndex < d.originalIndex ∨
    (c.originalIndex = d.originalIndex ∧ c.subIndex.getD 0 ≤ d.subIndex.getD 0)

instance : DecidableRel keyLe := fun c d => by
  unfold keyLe
  exact inferInstance

instance : IsTotal ChunkSpec keyLe where
  total c d := by
    unfold keyLe
    omega

instance : IsTrans ChunkSpec keyLe where
  trans a b c hab hbc := by
    unfold keyLe at *
    omega

/-- Modelled from the spec: the combined-transcript assembly of section 4.3
(the transcribe tool source is missing): sort every `done` chunk by
`(original_index, sub_index or 0)` and concatenate their segments,
never relying on completion order. -/
def combinedTranscript (results : List ChunkSpec) : String :=
  concatTexts
    (((results.filter fun c => c.status == ChunkStatus.done).insertionSort keyLe).map
      fun c => c.transcriptText)

/-- Modelled from the spec: one scheduler pass over a single chunk
(sections 4.2-4.3, idempotency): a chunk already `done` is returned
unchanged with zero ASR calls; any other chunk is transcribed through
the external ASR call `asr` and marked `done`.  The second component
counts the ASR calls made for the chunk. -/
def runChunk (asr : ChunkSpec → String) (c : ChunkSpec) : ChunkSpec × Nat :=
  if c.status = ChunkStatus.done then (c, 0)
  else
    ({ c with
        status := ChunkStatus.done
        transcriptText := asr c
        attemptCount := c.attemptCount + 1 }, 1)

/-- Modelled from the spec: re-running the pipeline against an existing
manifest (sections 4.2 and 8): every chunk goes through `runChunk`; the
second component is the total number of ASR calls performed. -/
def resumeRun (asr : ChunkSpec → String) (manifest : List ChunkSpec) :
    List ChunkSpec × Nat :=
  (manifest.map fun c => (runChunk asr c).1,
   (manifest.map fun c => (runChunk asr c).2).sum)

/-- Outcome of one job: a final answer produced under a strategy, or a
job-level failure with a reason. -/
inductive JobResult where
  | answer (text : String) (strategy : Strategy)
  | failed (reason : String)
deriving DecidableEq, Repr

/-- Whether a job outcome is a failure. -/
def JobResult.isFailed : JobResult → Bool
  | JobResult.failed _ => true
  | JobResult.answer _ _ => false

/-- Modelled from the spec: the full chunked pipeline for a job (section
4.3): run every remaining chunk, then answer from the combined
transcript under the map-reduce strategy. -/
def chunkedRun (asr : ChunkSpec → String) (manifest : List ChunkSpec) : JobResult :=
  JobResult.answer (combinedTranscript (resumeRun asr manifest).1) Strategy.map_reduce

/-- Modelled from the spec: the direct-strategy fallback of section 4.4 and
`docs/auto-url-direct.md`: the direct call is attempted exactly once; on
success its text is the answer, on any error the full chunked pipeline
runs for the same job.  The second component counts direct-call
attempts. -/
def runWithFallback (directCall : Except String String) (asr : ChunkSpec → String)
    (manifest : List ChunkSpec) : JobResult × Nat :=
  match directCall with
  | Except.ok text => (JobResult.answer text Strategy.direct, 1)
  | Except.error _ => (chunkedRun asr manifest, 1)

/-- An event surfaced to the user at the end of a job. -/
inductive JobEvent where
  | answerEvent (text : String)
  | errorEvent (reason : String)
deriving DecidableEq, Repr

/-- Whether an event is the terminal error event. -/
def JobEvent.isError : JobEvent → Bool
  | JobEvent.errorEvent _ => true
  | JobEvent.answerEvent _ => false

/-- Modelled from the spec: section 7's user-visible failure behaviour (the
service source `src/app/services/agent.py` is missing): finishing a job
emits one terminal event — the answer, or a single error event whose
reason is the failure reason (or a fixed default when that is empty) —
and the manifest, with every already-completed chunk, is kept as is. -/
def finishJob (outcome : JobResult) (manifest : List ChunkSpec) :
    List JobEvent × List ChunkSpec :=
  match outcome with
  | JobResult.answer text _ => ([JobEvent.answerEvent text], manifest)
  | JobResult.failed reason =>
    ([JobEvent.errorEvent (if reason = "" then defaultErrorText else reason)], manifest)

/-! Part 6: theorems about the claims. -/

/-- C10: for the in-memory storage fallback, `setItem` always returns
true; a read after a non-empty write returns the written value; a read
after an empty-string write, after a remove, or on a never-set key
returns null, so an empty-string write is indistinguishable from
absence at the read interface. -/
theorem memory_storage_spec (st : MemStore) (k v : String) :
    (st.setItem k v).2 = true ∧
    (v ≠ "" → ((st.setItem k v).1.getItem k) = some v) ∧
    ((st.setItem k "").1.getItem k) = none ∧
    (st k = none → st.getItem k = none) ∧
    ((st.removeItem k).1.getItem k) = none ∧
    ((st.setItem k "").1.getItem k) = ((st.removeItem k).1.getItem k) := by
  refine ⟨rfl, ?_, ?_, ?_, ?_, ?_⟩
  · intro hv
    simp [MemStore.setItem, MemStore.getItem, hv]
  · simp [MemStore.setItem, MemStore.getItem]
  · intro h
    simp [MemStore.getItem, h]
  · simp [MemStore.removeItem, MemStore.getItem]
  · simp [MemStore.setItem, MemStore.removeItem, MemStore.getItem]

/-- C10 witness: the storage laws at the concrete key `a` and value `x`. -/
theorem memory_storage_spec_witness :
    ((MemStore.empty.setItem "a" "x").1.getItem "a") = some "x" ∧
    ((MemStore.empty.setItem "a" "").1.getItem "a") = none :=
  ⟨(memory_storage_spec MemStore.empty "a" "x").2.1 (by decide),
   (memory_storage_spec MemStore.empty "a" "").2.2.1⟩

/-- C9 counterexample: an HTTP response with `ok` status whose body is not
valid JSON makes `request` reject (with the `res.json()` syntax error),
so `request` does not resolve exactly when the status is ok. -/
theorem request_ok_parse_counterexample :
    (⟨true, 200, none⟩ : HttpResponse Unit).ok = true ∧
    request (⟨true, 200, none⟩ : HttpResponse Unit) =
      Except.error RequestError.jsonSyntaxError ∧
    resolvesTo (request (⟨true, 200, none⟩ : HttpResponse Unit)) = none := by
  refine ⟨rfl, rfl, rfl⟩

/-- C9 (amended): `request` resolves with the parsed body exactly when the
response is ok and its body parses as JSON; a non-ok response always
throws `HTTP` followed by the status and never resolves; an ok response
with an unparseable body rejects with the parse error. -/
theorem request_behavior {J : Type} (res : HttpResponse J) :
    (res.ok = false →
      request res = Except.error (RequestError.httpError ("HTTP " ++ toString res.status))) ∧
    (res.ok = false → resolvesTo (request res) = none) ∧
    (∀ v : J, request res = Except.ok v ↔ (res.ok = true ∧ res.jsonBody = some v)) ∧
    (res.ok = true → res.jsonBody = none →
      request res = Except.error RequestError.jsonSyntaxError) := by
  refine ⟨?_, ?_, ?_, ?_⟩
  · intro h
    simp [request, h]
  · intro h
    simp [request, h, resolvesTo]
  · intro v
    constructor
    · intro h
      unfold request at h
      by_cases hok : res.ok = false
      · simp [hok] at h
      · refine ⟨by simpa using hok, ?_⟩
        rw [if_neg (by simp [hok])] at h
        cases hb : res.jsonBody with
        | some w => rw [hb] at h; simpa using h
        | none => rw [hb] at h; simp at h
    · rintro ⟨hok, hb⟩
      simp [request, hok, hb]
  · intro hok hb
    simp [request, hok, hb]

/-- C9 witness: the amended behaviour at concrete responses — a 404
response throws `HTTP 404`, and an ok response with body `7` resolves
with `7`. -/
theorem request_behavior_witness :
    request (⟨false, 404, none⟩ : HttpResponse Nat) =
      Except.error (RequestError.httpError "HTTP 404") ∧
    request (⟨true, 200, some 7⟩ : HttpResponse Nat) = Except.ok 7 :=
  ⟨(request_behavior (⟨false, 404, none⟩ : HttpResponse Nat)).1 rfl,
   ((request_behavior (⟨true, 200, some 7⟩ : HttpResponse Nat)).2.2.1 7).mpr ⟨rfl, rfl⟩⟩

/-- C5 counterexample: the UI's task flows and label table use the step
name `summarise_url_direct`, which is not in the vocabulary the claim
fixes (`summarise_direct`/`summarise_map_reduce` appear nowhere in the
UI code). -/
theorem progress_vocabulary_counterexample :
    "summarise_url_direct" ∈ SHORT_VIDEO_FLOW ∧
    "summarise_url_direct" ∈ LABELS.map Prod.fst ∧
    specClaimedStepVocabulary.contains "summarise_url_direct" = false ∧
    LABELS.map Prod.fst ≠ specClaimedStepVocabulary := by
  refine ⟨by decide, by decide, by decide, by decide⟩

/-- C5 (amended): progress statuses are exactly
pending/running/done/error; the fixed step vocabulary the UI knows is
`fetch_task`, `extract_audio`, `transcribe_asr`, `summarise_url_direct`,
`emit_output`, and both expected task flows draw only from it; but step
names are unconstrained strings, and a name outside the vocabulary is
still consumed and rendered through the underscore-to-space fallback. -/
theorem progress_vocabulary_actual (s : ProgressStatus) (n : String) :
    (s = ProgressStatus.pending ∨ s = ProgressStatus.running ∨
      s = ProgressStatus.done ∨ s = ProgressStatus.error) ∧
    LABELS.map Prod.fst =
      ["fetch_task", "extract_audio", "transcribe_asr",
       "summarise_url_direct", "emit_output"] ∧
    (∀ m ∈ SHORT_VIDEO_FLOW, m ∈ LABELS.map Prod.fst) ∧
    (∀ m ∈ LONG_VIDEO_FLOW, m ∈ LABELS.map Prod.fst) ∧
    (List.lookup n LABELS = none → labelFor n = n.replace "_" " ") := by
  refine ⟨?_, by decide, by decide, by decide, ?_⟩
  · cases s
    · exact Or.inl rfl
    · exact Or.inr (Or.inl rfl)
    · exact Or.inr (Or.inr (Or.inl rfl))
    · exact Or.inr (Or.inr (Or.inr rfl))
  · intro h
    simp [labelFor, h]

/-- C5 witness: the amended behaviour at the concrete unknown step name
`foo_bar`, rendered through the fallback label. -/
theorem progress_vocabulary_actual_witness :
    labelFor "foo_bar" = "foo_bar".replace "_" " " :=
  (progress_vocabulary_actual ProgressStatus.pending "foo_bar").2.2.2.2 (by decide)

/-- C1: strategy selection is a pure function of the duration and the
configured threshold — at most the threshold selects direct, whose task
flow is exactly fetch followed by the one direct synthesis step, with no
extraction and no chunked transcription; above it selects map-reduce,
whose flow contains extraction and chunked transcription. -/
theorem strategy_selection_pure (d thresholdMinutes : Nat) :
    (d ≤ thresholdMinutes * 60 →
      selectStrategy d thresholdMinutes = Strategy.direct ∧
      taskFlowFor (selectStrategy d thresholdMinutes) =
        ["fetch_task", "summarise_url_direct"] ∧
      (taskFlowFor (selectStrategy d thresholdMinutes)).contains "extract_audio" = false ∧
      (taskFlowFor (selectStrategy d thresholdMinutes)).contains "transcribe_asr" = false) ∧
    (¬ d ≤ thresholdMinutes * 60 →
      selectStrategy d thresholdMinutes = Strategy.map_reduce ∧
      "extract_audio" ∈ taskFlowFor (selectStrategy d thresholdMinutes) ∧
      "transcribe_asr" ∈ taskFlowFor (selectStrategy d thresholdMinutes)) := by
  constructor
  · intro h
    have hs : selectStrategy d thresholdMinutes = Strategy.direct := by
      simp [selectStrategy, h]
    refine ⟨hs, ?_, ?_, ?_⟩ <;> rw [hs] <;> decide
  · intro h
    have hs : selectStrategy d thresholdMinutes = Strategy.map_reduce := by
      simp [selectStrategy, h]
    refine ⟨hs, ?_, ?_⟩ <;> rw [hs] <;> decide

/-- C1 witness: a 15-minute video against a 20-minute threshold selects
direct; a 60-minute video against the same threshold selects
map-reduce. -/
theorem strategy_selection_pure_witness :
    selectStrategy 900 20 = Strategy.direct ∧
    selectStrategy 3600 20 = Strategy.map_reduce :=
  ⟨((strategy_selection_pure 900 20).1 (by decide)).1,
   ((strategy_selection_pure 3600 20).2 (by decide)).1⟩

/-- C6: when the direct call fails, for any reason, the job's outcome is
exactly the full chunked pipeline's outcome for the same job — not a
failure — and the direct call was attempted exactly once (no retry of
the same call); a successful direct call answers directly. -/
theorem direct_failure_falls_back (e : String) (asr : ChunkSpec → String)
    (manifest : List ChunkSpec) (s : String) :
    runWithFallback (Except.error e) asr manifest = (chunkedRun asr manifest, 1) ∧
    (runWithFallback (Except.error e) asr manifest).1 =
      JobResult.answer (combinedTranscript (resumeRun asr manifest).1) Strategy.map_reduce ∧
    ((runWithFallback (Except.error e) asr manifest).1).isFailed = false ∧
    (runWithFallback (Except.error e) asr manifest).2 = 1 ∧
    runWithFallback (Except.ok s) asr manifest = (JobResult.answer s Strategy.direct, 1) := by
  exact ⟨rfl, rfl, rfl, rfl, rfl⟩

/-- C7 counterexample: an error frame whose `message` field is present
but empty displays the fixed default text, not its (empty) message as
the claim's display rule predicts. -/
theorem error_display_counterexample :
    specClaimedErrorDisplay (some "") = "" ∧
    (onMessage initialChatState (WSFrame.msg (some "error") none (some ""))).wsError =
      defaultErrorText ∧
    (defaultErrorText == "") = false := by
  refine ⟨rfl, by decide, by decide⟩

/-- C7 (amended): finishing a failing job surfaces exactly one terminal
error event, whose reason is non-empty (the failure reason, or the fixed
default when that is empty), and the manifest with its already-completed
chunks is kept unchanged; in the UI, an error frame displays its message
when present and non-empty, and the fixed default text when the field is
absent or empty. -/
theorem error_surfaced_once (manifest : List ChunkSpec) (reason : String)
    (st : ChatStreamState) (m : Option String) :
    (((finishJob (JobResult.failed reason) manifest).1.countP JobEvent.isError) = 1) ∧
    ((finishJob (JobResult.failed reason) manifest).1 =
      [JobEvent.errorEvent (if reason = "" then defaultErrorText else reason)]) ∧
    (((if reason = "" then defaultErrorText else reason) == "") = false) ∧
    ((finishJob (JobResult.failed reason) manifest).2 = manifest) ∧
    ((onMessage st (WSFrame.msg (some "error") none m)).wsError =
      (match m with
       | some s => if s = "" then defaultErrorText else s
       | none => defaultErrorText)) := by
  refine ⟨?_, rfl, ?_, rfl, ?_⟩
  · simp [finishJob, JobEvent.isError, List.countP_cons]
  · by_cases h : reason = ""
    · simp [h]
      decide
    · simp [h]
  · simp [onMessage]

/-! Lemmas for the streaming-text claim. -/

/-- One `onMessage` step changes `streamText` exactly as the claim's
description does: reset on `message_complete`/`error`, append a
non-empty token text, otherwise no change. -/
theorem onMessage_streamText (st : ChatStreamState) (f : WSFrame) :
    (onMessage st f).streamText = specStep st.streamText f := by
  cases f with
  | invalid => rfl
  | msg ty text message =>
    cases ty with
    | none => simp [onMessage, specStep, isResetFrame, tokenText]
    | some s =>
      by_cases hc : s = "connected"
      · subst hc
        simp [onMessage, specStep, isResetFrame, tokenText]
      · by_cases htk : s = "token"
        · subst htk
          cases text with
          | none => simp [onMessage, specStep, isResetFrame, tokenText]
          | some t =>
            by_cases ht : t = "" <;>
              simp [onMessage, specStep, isResetFrame, tokenText, ht]
        · by_cases hmc : s = "message_complete"
          · subst hmc
            simp [onMessage, specStep, isResetFrame, tokenText]
          · by_cases herr : s = "error"
            · subst herr
              simp [onMessage, specStep, isResetFrame, tokenText]
            · simp [onMessage, specStep, isResetFrame, tokenText, hc, htk, hmc, herr]

/-- Folding `onMessage` over delivered frames tracks the claim's fold on
the streaming text alone. -/
theorem foldl_onMessage_streamText (frames : List WSFrame) (st : ChatStreamState) :
    (frames.foldl onMessage st).streamText = frames.foldl specStep st.streamText := by
  induction frames generalizing st with
  | nil => rfl
  | cons f fs ih =>
    simp only [List.foldl_cons]
    rw [ih, onMessage_streamText]

/-- Concatenation distributes over list append. -/
theorem concatTexts_append (l₁ l₂ : List String) :
    concatTexts (l₁ ++ l₂) = concatTexts l₁ ++ concatTexts l₂ := by
  induction l₁ with
  | nil => simp [concatTexts]
  | cons a l ih =>
    simp only [List.cons_append, concatTexts, List.foldr_cons] at *
    rw [ih, String.append_assoc]

/-- The claim's fold equals the concatenation of the token texts of the
frames accumulated since the most recent reset. -/
theorem foldl_specStep_eq (frames : List WSFrame) (acc : List WSFrame) (s : String)
    (h : s = concatTexts (acc.filterMap tokenText)) :
    frames.foldl specStep s =
      concatTexts
        ((frames.foldl (fun a f => if isResetFrame f then [] else a ++ [f])
          acc).filterMap tokenText) := by
  induction frames generalizing acc s with
  | nil => simpa using h
  | cons f fs ih =>
    simp only [List.foldl_cons]
    by_cases hr : isResetFrame f
    · exact ih _ _ (by simp [specStep, hr, concatTexts])
    · refine ih _ _ ?_
      rw [if_neg hr]
      cases htk : tokenText f with
      | none =>
        rw [List.filterMap_append]
        simp [specStep, hr, htk, h]
      | some t =>
        rw [List.filterMap_append, concatTexts_append]
        simp [specStep, hr, htk, h, concatTexts]

/-- C8: after any sequence of delivered WebSocket frames, the displayed
streaming text equals the in-order concatenation of the non-empty token
texts received since the most recent `message_complete` or `error`
frame (or since connection start); invalid JSON, other frame types, and
empty or absent token texts leave it unchanged. -/
theorem chat_stream_spec (frames : List WSFrame) :
    chatStream frames = displayedStreamText frames := by
  unfold chatStream displayedStreamText framesSinceReset
  rw [foldl_onMessage_streamText]
  exact foldl_specStep_eq frames [] "" rfl

/-- C2 counterexample: in the spec's own worked scenario (duration 3600,
target 1800, overlap 2) the planner returns `(0, 1800)` and
`(1798, 3600)`, and the second chunk's span is 1802, exceeding the
target 1800 — so the claimed span bound and the claimed scenario cannot
both hold. -/
theorem chunk_planner_span_counterexample :
    planChunks 3600 1800 2 = [(0, 1800), (1798, 3600)] ∧
    (1798, 3600) ∈ planChunks 3600 1800 2 ∧
    (3600 - 1798 ≤ 1800) = False := by
  refine ⟨by decide, by decide, by simp⟩

/-- C2 (amended): for every duration and positive target, the planner's
chunks are ordered, start at 0, end at the duration, leave no gap
between consecutive chunks, stay within the duration, and each span is
at most target + overlap (the overlap extension is what makes the
spec's two-chunk scenario possible); a duration at most the target
yields exactly one whole-media chunk; and the worked scenario holds. -/
theorem chunk_planner_coverage (d t ov : Nat) (ht : 0 < t) :
    (planChunks d t ov).head? = some (0, min t d) ∧
    ((planChunks d t ov).map Prod.snd).getLast? = some d ∧
    (∀ p ∈ planChunks d t ov, p.1 ≤ p.2 ∧ p.2 ≤ d ∧ p.2 - p.1 ≤ t + ov) ∧
    List.Chain' (fun p q : Nat × Nat => p.1 ≤ q.1 ∧ q.1 ≤ p.2) (planChunks d t ov) ∧
    (d ≤ t → planChunks d t ov = [(0, d)]) ∧
    planChunks 3600 1800 2 = [(0, 1800), (1798, 3600)] := by
  have hdiv : t * ((d + t - 1) / t) + (d + t - 1) % t = d + t - 1 :=
    Nat.div_add_mod _ t
  have hmod : (d + t - 1) % t < t := Nat.mod_lt _ ht
  have hn : numChunks d t = max 1 ((d + t - 1) / t) := rfl
  obtain ⟨k, hk⟩ : ∃ k, numChunks d t = k + 1 :=
    ⟨numChunks d t - 1, by unfold numChunks; omega⟩
  have hck : (d + t - 1) / t ≤ k + 1 := by omega
  have hA : d ≤ (k + 1) * t := by
    have h1 := Nat.mul_le_mul_right t hck
    have h2 : t * ((d + t - 1) / t) = ((d + t - 1) / t) * t := Nat.mul_comm _ _
    omega
  have hB : ∀ i, 0 < i → i < k + 1 → i * t < d := by
    intro i hi0 hik
    have hc2 : (d + t - 1) / t = k + 1 := by omega
    have h1 : i * t ≤ k * t := Nat.mul_le_mul_right t (by omega)
    have h2 : k * t + t = (k + 1) * t := (Nat.succ_mul k t).symm
    have h4 := hdiv
    rw [hc2] at h4
    have h5 : t * (k + 1) = (k + 1) * t := Nat.mul_comm _ _
    omega
  refine ⟨?_, ?_, ?_, ?_, ?_, by decide⟩
  · unfold planChunks
    rw [hk, List.range_succ_eq_map k]
    simp
  · unfold planChunks
    rw [hk, List.range_succ k]
    simp only [List.map_append, List.map_cons, List.map_nil]
    rw [List.getLast?_concat]
    simp [min_eq_right hA]
  · unfold planChunks
    rw [hk]
    intro p hp
    rw [List.mem_map] at hp
    obtain ⟨i, hi, rfl⟩ := hp
    rw [List.mem_range] at hi
    dsimp only
    by_cases hi0 : i = 0
    · subst hi0
      refine ⟨Nat.zero_le _, by omega, ?_⟩
      have h1 : min ((0 + 1) * t) d ≤ (0 + 1) * t := min_le_left _ _
      simp only [if_pos rfl]
      omega
    · rw [if_neg hi0]
      have hlt : i * t < d := hB i (by omega) hi
      have hmul : i * t + t = (i + 1) * t := (Nat.succ_mul i t).symm
      have hmin1 : min ((i + 1) * t) d ≤ (i + 1) * t := min_le_left _ _
      have hmin2 : min ((i + 1) * t) d ≤ d := min_le_right _ _
      refine ⟨le_min (by omega) (by omega), hmin2, by omega⟩
  · unfold planChunks
    rw [hk, List.chain'_map]
    rw [List.chain'_range_succ]
    intro m hm
    simp only [Nat.succ_eq_add_one]
    constructor
    · by_cases hm0 : m = 0
      · subst hm0
        simp
      · rw [if_neg hm0, if_neg (by omega : ¬ m + 1 = 0)]
        have hmul : m * t + t = (m + 1) * t := (Nat.succ_mul m t).symm
        omega
    · rw [if_neg (by omega : ¬ m + 1 = 0)]
      have hlt : (m + 1) * t < d := hB (m + 1) (by omega) (by omega)
      exact le_min (by omega) (by omega)
  · intro hdt
    have hn1 : numChunks d t = 1 := by
      have h2 : (d + t - 1) / t < 2 := by
        rw [Nat.div_lt_iff_lt_mul ht]
        omega
      unfold numChunks
      omega
    unfold planChunks
    rw [hn1, (by decide : List.range 1 = [0])]
    simp [min_eq_right hdt]

/-- C2 witness: the amended planner laws at the spec's worked scenario
(duration 3600, target 1800, overlap 2). -/
theorem chunk_planner_coverage_witness :
    (planChunks 3600 1800 2).head? = some (0, min 1800 3600) ∧
    planChunks 3600 1800 2 = [(0, 1800), (1798, 3600)] :=
  ⟨(chunk_planner_coverage 3600 1800 2 (by decide)).1,
   (chunk_planner_coverage 3600 1800 2 (by decide)).2.2.2.2.2⟩

/-- Two chunks below each other in the key order share their canonical
ordering key. -/
theorem chunkKey_eq_of_keyLe (a b : ChunkSpec) (hab : keyLe a b) (hba : keyLe b a) :
    chunkKey a = chunkKey b := by
  unfold keyLe at hab hba
  unfold chunkKey
  have h1 : a.originalIndex = b.originalIndex := by omega
  have h2 : a.subIndex.getD 0 = b.subIndex.getD 0 := by omega
  rw [h1, h2]

/-- A list sorted by the canonical key order is determined by its
multiset of chunks, as long as the keys are pairwise distinct. -/
theorem sorted_perm_eq (l₁ : List ChunkSpec) :
    ∀ l₂ : List ChunkSpec, l₁.Perm l₂ → l₁.Sorted keyLe → l₂.Sorted keyLe →
      (l₁.map chunkKey).Nodup → l₁ = l₂ := by
  induction l₁ with
  | nil =>
    intro l₂ hp _ _ _
    exact (hp.symm.eq_nil).symm
  | cons a t ih =>
    intro l₂ hp hs₁ hs₂ hnd
    cases l₂ with
    | nil => exact absurd hp.eq_nil (List.cons_ne_nil a t)
    | cons b t₂ =>
      have hnd' : (∀ x ∈ t, ¬chunkKey x = chunkKey a) ∧ (t.map chunkKey).Nodup := by
        simpa using hnd
      have hab : a = b := by
        by_contra hne
        have ha2 : a ∈ t₂ := by
          have := hp.mem_iff.mp (List.mem_cons_self a t)
          cases List.mem_cons.mp this with
          | inl h => exact absurd h hne
          | inr h => exact h
        have hb1 : b ∈ t := by
          have := hp.mem_iff.mpr (List.mem_cons_self b t₂)
          cases List.mem_cons.mp this with
          | inl h => exact absurd h.symm hne
          | inr h => exact h
        have h1 : keyLe a b := (List.sorted_cons.mp hs₁).1 b hb1
        have h2 : keyLe b a := (List.sorted_cons.mp hs₂).1 a ha2
        have hk := chunkKey_eq_of_keyLe a b h1 h2
        exact hnd'.1 b hb1 hk.symm
      subst hab
      have hteq : t = t₂ :=
        ih t₂ hp.cons_inv (List.sorted_cons.mp hs₁).2 (List.sorted_cons.mp hs₂).2 hnd'.2
      rw [hteq]

/-- C3: the combined transcript is, by construction, the concatenation of
the done chunks' segments sorted by `(original_index, sub_index or 0)`,
and it is invariant under every permutation of the order in which
concurrently executed chunks were collected, provided the done chunks
carry pairwise distinct ordering keys. -/
theorem combined_transcript_order_invariant (r₁ r₂ : List ChunkSpec)
    (hperm : r₁.Perm r₂)
    (hkeys : ((r₁.filter fun c => c.status == ChunkStatus.done).map chunkKey).Nodup) :
    combinedTranscript r₁ = combinedTranscript r₂ := by
  unfold combinedTranscript
  have hpf : (r₁.filter fun c => c.status == ChunkStatus.done).Perm
      (r₂.filter fun c => c.status == ChunkStatus.done) :=
    hperm.filter _
  have hsort :
      ((r₁.filter fun c => c.status == ChunkStatus.done).insertionSort keyLe) =
        ((r₂.filter fun c => c.status == ChunkStatus.done).insertionSort keyLe) := by
    apply sorted_perm_eq
    · exact (List.perm_insertionSort keyLe _).trans
        (hpf.trans (List.perm_insertionSort keyLe _).symm)
    · exact List.sorted_insertionSort keyLe _
    · exact List.sorted_insertionSort keyLe _
    · exact (((List.perm_insertionSort keyLe _).map chunkKey).nodup_iff).mpr hkeys
  rw [hsort]

/-- C3 witness: two done chunks collected in either completion order give
the same combined transcript. -/
theorem combined_transcript_order_invariant_witness :
    ([(⟨1, none, 10, 20, ChunkStatus.done, "B", 1⟩ : ChunkSpec),
      ⟨0, none, 0, 10, ChunkStatus.done, "A", 1⟩].Perm
     [(⟨0, none, 0, 10, ChunkStatus.done, "A", 1⟩ : ChunkSpec),
      ⟨1, none, 10, 20, ChunkStatus.done, "B", 1⟩]) ∧
    combinedTranscript
        [(⟨1, none, 10, 20, ChunkStatus.done, "B", 1⟩ : ChunkSpec),
         ⟨0, none, 0, 10, ChunkStatus.done, "A", 1⟩] =
      combinedTranscript
        [(⟨0, none, 0, 10, ChunkStatus.done, "A", 1⟩ : ChunkSpec),
         ⟨1, none, 10, 20, ChunkStatus.done, "B", 1⟩] ∧
    combinedTranscript
        [(⟨1, none, 10, 20, ChunkStatus.done, "B", 1⟩ : ChunkSpec),
         ⟨0, none, 0, 10, ChunkStatus.done, "A", 1⟩] = "AB" :=
  ⟨List.Perm.swap _ _ _,
   combined_transcript_order_invariant _ _ (List.Perm.swap _ _ _) (by decide),
   by decide⟩

/-- C4: re-running the pipeline against a manifest performs zero ASR calls
for every chunk already marked done and returns those chunks unchanged
(same status, same recorded artifacts) in the resumed manifest, and the
total number of ASR calls equals the number of not-yet-done chunks. -/
theorem resume_skips_done_chunks (asr : ChunkSpec → String) (manifest : List ChunkSpec) :
    (∀ c ∈ manifest, c.status = ChunkStatus.done →
      runChunk asr c = (c, 0) ∧ c ∈ (resumeRun asr manifest).1) ∧
    (resumeRun asr manifest).2 =
      (manifest.filter fun c => !(c.status == ChunkStatus.done)).length := by
  constructor
  · intro c hc hdone
    have hrun : runChunk asr c = (c, 0) := by
      unfold runChunk
      rw [if_pos hdone]
    refine ⟨hrun, ?_⟩
    have h2 := List.mem_map_of_mem (fun x => (runChunk asr x).1) hc
    simpa [resumeRun, hrun] using h2
  · have key : ∀ ms : List ChunkSpec,
        (ms.map fun c => (runChunk asr c).2).sum =
          (ms.filter fun c => !(c.status == ChunkStatus.done)).length := by
      intro ms
      induction ms with
      | nil => rfl
      | cons c m ih =>
        have hstep : (runChunk asr c).2 =
            if c.status = ChunkStatus.done then 0 else 1 := by
          unfold runChunk
          split <;> rfl
        by_cases h : c.status = ChunkStatus.done <;>
          simp [List.filter_cons, h, hstep, ih]
        omega
    simpa [resumeRun] using key manifest

/-- C4 witness: a chunk already done in a concrete manifest goes through
the scheduler untouched, with zero ASR calls. -/
theorem resume_skips_done_chunks_witness :
    runChunk (fun _ => "T") (⟨0, none, 0, 10, ChunkStatus.done, "A", 1⟩ : ChunkSpec) =
      ((⟨0, none, 0, 10, ChunkStatus.done, "A", 1⟩ : ChunkSpec), 0) :=
  ((resume_skips_done_chunks (fun _ => "T")
      [⟨0, none, 0, 10, ChunkStatus.done, "A", 1⟩]).1
    ⟨0, none, 0, 10, ChunkStatus.done, "A", 1⟩ (by decide) rfl).1
